import Mathlib

/-!
# User defined recursors (`src/library/user_recursors.h`)

A shallow embedding of the `recursor_info` record, its derived positional
accessors, its serialized form, the recursor registry of an environment and
the `has_recursors_pred` snapshot, followed by the properties established
about them.

Conventions of the embedding:

* a C++ `unsigned` is a natural number below `unsigned_range = 2 ^ 32`; every
  arithmetic operation of the source that can leave that range is reduced
  modulo `unsigned_range` explicitly;
* `list<unsigned>` is `List Nat`, `optional<unsigned>` is `Option Nat`;
* `name` is kept abstract: a type with decidable equality.
-/

namespace lean

/-! ## Machine integers -/

/-- The number of values of the C++ type `unsigned` (32 bits). -/
@[reducible] def unsigned_range : Nat := 2 ^ 32

/-- A natural number that is a value of the C++ type `unsigned`. -/
@[reducible] def is_unsigned (n : Nat) : Prop := n < unsigned_range

/-- Subtraction of two `unsigned` values as C++ computes it: the result is
reduced modulo `2 ^ 32`, so a too large subtrahend wraps around. -/
def unsigned_sub (a b : Nat) : Nat :=
  (a % unsigned_range + (unsigned_range - b % unsigned_range)) % unsigned_range

/-- Modelled from the spec: the list helper `length` (declared with the list
type, outside `user_recursors.h`) is missing; the spec writes it as the number
of elements `|l|`. Its result type in the callers is `unsigned`, hence the
reduction modulo `2 ^ 32`. -/
def length {α : Type} (l : List α) : Nat := l.length % unsigned_range

/-! ## `recursor_info` -/

/-- Information for a user defined recursor: the seven data members of the
class `recursor_info`, in declaration order. The structure constructor plays
the role of the seven-argument C++ constructor, which the header declares with
one argument per member and no precondition, and which stores each argument in
the member of the same name. -/
structure recursor_info (name : Type) where
  m_recursor : name
  m_type_name : name
  /-- When `none`, the recursor can only eliminate to Prop. -/
  m_motive_univ_pos : Option Nat
  m_dep_elim : Bool
  m_major_pos : Nat
  /-- Position of the recursor parameters in the major premise. -/
  m_params_pos : List Nat
  /-- Position of the recursor indices in the major premise. -/
  m_indices_pos : List Nat
deriving DecidableEq

namespace recursor_info

variable {name : Type}

def get_name (info : recursor_info name) : name := info.m_recursor

def get_type_name (info : recursor_info name) : name := info.m_type_name

def get_num_params (info : recursor_info name) : Nat := length info.m_params_pos

def get_num_indices (info : recursor_info name) : Nat := length info.m_indices_pos

def get_motive_pos (info : recursor_info name) : Nat := info.get_num_params

def get_first_index_pos (info : recursor_info name) : Nat :=
  unsigned_sub info.m_major_pos info.get_num_indices

def get_major_pos (info : recursor_info name) : Nat := info.m_major_pos

def get_motive_univ_pos (info : recursor_info name) : Option Nat := info.m_motive_univ_pos

def get_params_pos (info : recursor_info name) : List Nat := info.m_params_pos

def get_indices_pos (info : recursor_info name) : List Nat := info.m_indices_pos

def has_dep_elim (info : recursor_info name) : Bool := info.m_dep_elim

/-- Modelled from the spec: the body of `recursor_info::is_minor` is missing
(the header only declares `bool is_minor(unsigned pos) const`). The spec:
"true iff `pos` is strictly between `motive_position` and
`first_index_position` (exclusive on both ends); [...] undefined
(implementation should reject) for `pos ≥` argument count". The definition
follows the first clause. For a position at or beyond the argument count (past
the major premise, which is the last argument) the spec fixes no answer; what
the definition returns there is not part of the model, and the property below
is stated for `pos ≤ major_pos` only. -/
def is_minor (info : recursor_info name) (pos : Nat) : Bool :=
  decide (info.get_motive_pos < pos ∧ pos < info.get_first_index_pos)

/-- The value is one a C++ `recursor_info` can hold: every `unsigned` it
stores is below `2 ^ 32`, and so is the length of each position list (which
`length` reports as an `unsigned`). -/
def representable (info : recursor_info name) : Prop :=
  (∀ u ∈ info.m_motive_univ_pos, is_unsigned u) ∧
  is_unsigned info.m_major_pos ∧
  (∀ x ∈ info.m_params_pos, is_unsigned x) ∧
  is_unsigned info.m_params_pos.length ∧
  (∀ x ∈ info.m_indices_pos, is_unsigned x) ∧
  is_unsigned info.m_indices_pos.length

instance (info : recursor_info name) : Decidable info.representable := by
  unfold representable; infer_instance

/-- The canonical layout of the spec (section 3), for `p` parameters and `q`
indices: the parameters are the positions `0 .. p-1` in order, the motive is
at `p`, the indices are the positions `major-q .. major-1` in order, and the
motive comes before the first index (`p < major - q`, stated without
subtraction as `p + q < major`). -/
def canonical_layout (info : recursor_info name) : Prop :=
  info.m_params_pos = List.range info.m_params_pos.length ∧
  info.m_indices_pos =
    List.range' (info.m_major_pos - info.m_indices_pos.length) info.m_indices_pos.length ∧
  info.m_params_pos.length + info.m_indices_pos.length < info.m_major_pos

instance (info : recursor_info name) : Decidable info.canonical_layout := by
  unfold canonical_layout; infer_instance

end recursor_info

/-! ## Serialized record -/

/-- Modelled from the spec: the stream types `serializer` and `deserializer`
are missing. The spec (section 6) describes the record as a fixed sequence of
primitive objects: names, flags and 32-bit values. A stream is the list of
such objects. -/
inductive object (name : Type) where
  | of_name (n : name)
  | of_bool (b : Bool)
  | of_unsigned (v : Nat)
deriving DecidableEq

/-- The objects written so far, oldest first. -/
abbrev serializer (name : Type) := List (object name)

/-- The objects that remain to be read, next one first. -/
abbrev deserializer (name : Type) := List (object name)

section serialization

variable {name : Type}

def write_name (s : serializer name) (n : name) : serializer name :=
  s ++ [object.of_name n]

def write_bool (s : serializer name) (b : Bool) : serializer name :=
  s ++ [object.of_bool b]

/-- A 32-bit value: only the low 32 bits reach the stream. -/
def write_unsigned (s : serializer name) (v : Nat) : serializer name :=
  s ++ [object.of_unsigned (v % unsigned_range)]

/-- Optional 32-bit value: presence flag, then the value when present. -/
def write_optional_unsigned (s : serializer name) : Option Nat → serializer name
  | none => write_bool s false
  | some v => write_unsigned (write_bool s true) v

def write_elements (s : serializer name) : List Nat → serializer name
  | [] => s
  | x :: xs => write_elements (write_unsigned s x) xs

/-- Length-prefixed sequence of 32-bit values. -/
def write_list (s : serializer name) (l : List Nat) : serializer name :=
  write_elements (write_unsigned s (length l)) l

def read_name : deserializer name → Option (name × deserializer name)
  | object.of_name n :: d => some (n, d)
  | _ => none

def read_bool : deserializer name → Option (Bool × deserializer name)
  | object.of_bool b :: d => some (b, d)
  | _ => none

def read_unsigned : deserializer name → Option (Nat × deserializer name)
  | object.of_unsigned v :: d => some (v, d)
  | _ => none

def read_optional_unsigned (d : deserializer name) : Option (Option Nat × deserializer name) :=
  match read_bool d with
  | none => none
  | some (false, d1) => some (none, d1)
  | some (true, d1) =>
    match read_unsigned d1 with
    | none => none
    | some (v, d2) => some (some v, d2)

def read_elements : Nat → deserializer name → Option (List Nat × deserializer name)
  | 0, d => some ([], d)
  | n + 1, d =>
    match read_unsigned d with
    | none => none
    | some (v, d1) =>
      match read_elements n d1 with
      | none => none
      | some (vs, d2) => some (v :: vs, d2)

def read_list (d : deserializer name) : Option (List Nat × deserializer name) :=
  match read_unsigned d with
  | none => none
  | some (n, d1) => read_elements n d1

/-- Modelled from the spec: the body of `recursor_info::write` is missing. The
spec (section 6) fixes the field order: recursor name; target family name;
optional 32-bit motive-universe position (presence flag + value);
dependent-elimination flag; 32-bit major position; length-prefixed sequence of
32-bit parameter positions; length-prefixed sequence of 32-bit index
positions. -/
def recursor_info.write (info : recursor_info name) (s : serializer name) : serializer name :=
  let s1 := write_name s info.m_recursor
  let s2 := write_name s1 info.m_type_name
  let s3 := write_optional_unsigned s2 info.m_motive_univ_pos
  let s4 := write_bool s3 info.m_dep_elim
  let s5 := write_unsigned s4 info.m_major_pos
  let s6 := write_list s5 info.m_params_pos
  write_list s6 info.m_indices_pos

/-- Modelled from the spec: the body of `recursor_info::read` is missing. It
reads the fields in the order `write` emits them and rebuilds the record with
the seven-argument constructor; `none` stands for a stream that does not hold
a record. The second component is what remains of the stream. -/
def recursor_info.read (d : deserializer name) : Option (recursor_info name × deserializer name) :=
  match read_name d with
  | none => none
  | some (r, d1) =>
  match read_name d1 with
  | none => none
  | some (I, d2) =>
  match read_optional_unsigned d2 with
  | none => none
  | some (motive_univ_pos, d3) =>
  match read_bool d3 with
  | none => none
  | some (dep_elim, d4) =>
  match read_unsigned d4 with
  | none => none
  | some (major_pos, d5) =>
  match read_list d5 with
  | none => none
  | some (params_pos, d6) =>
  match read_list d6 with
  | none => none
  | some (indices_pos, d7) =>
    some (recursor_info.mk r I motive_univ_pos dep_elim major_pos params_pos indices_pos, d7)

end serialization

/-! ## The recursor registry -/

/-- Modelled from the spec: the map type `name_map` is missing. It is a finite
map keyed by names; here an association list in which a key occurs at most
once as long as it is built with `insert`, the first binding of a key being
the one that counts. -/
abbrev name_map (name : Type) (α : Type) := List (name × α)

namespace name_map

variable {name : Type} [DecidableEq name] {α : Type}

def find : name_map name α → name → Option α
  | [], _ => none
  | (k, v) :: m, n => if k = n then some v else find m n

def contains (m : name_map name α) (n : name) : Bool := (find m n).isSome

def insert : name_map name α → name → α → name_map name α
  | [], n, v => [(n, v)]
  | (k, w) :: m, n, v => if k = n then (n, v) :: m else (k, w) :: insert m n v

end name_map

/-- The closed set of shape error kinds of the spec (section 7). -/
inductive shape_error_kind where
  | NotAFunction
  | MajorPremiseNotFound
  | AmbiguousMajorPremise
  | ParamOrIndexNotVariable
  | MotiveNotFound
  | AmbiguousMotive
  | MotiveUniverseNotFree
  | NonCanonicalLayout
deriving DecidableEq

/-- A shape error: its kind and the offending position or name. -/
structure RecursorShapeError (name : Type) where
  kind : shape_error_kind
  culprit : Nat ⊕ name
deriving DecidableEq

/-- Modelled from the spec: the environment class is missing. Only its
recursor registry matters here: the map recursor name → metadata, the map
inductive-family name → ordered list of registered recursor names, and the
entries marked persistent, which are the ones exported to importing
modules. -/
structure environment (name : Type) where
  m_recursors : name_map name (recursor_info name)
  m_type2recursors : name_map name (List name)
  m_exported : List (recursor_info name)
deriving DecidableEq

/-- The environment in which nothing has been registered. -/
def initial_environment (name : Type) : environment name :=
  { m_recursors := [], m_type2recursors := [], m_exported := [] }

/-- The shape validator of the spec (section 4.2) applied to the declarations
of an environment: from a candidate name and an optional major-position hint
to a metadata record or a shape error. It is a pure function of the
declaration's type and of the family's shape, none of which a registration
changes, so it is one fixed function along a sequence of registrations. Its
analysis of types is outside this development and it is left arbitrary. -/
abbrev shape_validator (name : Type) :=
  name → Option Nat → Except (RecursorShapeError name) (recursor_info name)

section registry

variable {name : Type} [DecidableEq name]

/-- Modelled from the spec: the body of `get_recursor_info` is missing.
Exact-name lookup; `none` stands for the failure `NotARecursor`. -/
def get_recursor_info (env : environment name) (r : name) : Option (recursor_info name) :=
  env.m_recursors.find r

/-- Modelled from the spec: the body of `get_recursors_for` is missing. All
recursors registered against `I`, in registration order; the empty sequence if
none. -/
def get_recursors_for (env : environment name) (I : name) : List name :=
  match env.m_type2recursors.find I with
  | some l => l
  | none => []

/-- Modelled from the spec: the registry update behind `add_user_recursor` is
missing. The registry is "extended by one entry, appended to that family's
recursor list (registration order preserved)": the metadata is bound to the
recursor name, the recursor name goes at the end of its family's list, and a
persistent entry is recorded for export. -/
def add_entry (env : environment name) (info : recursor_info name) (persistent : Bool) :
    environment name :=
  { m_recursors := env.m_recursors.insert info.get_name info
    m_type2recursors :=
      env.m_type2recursors.insert info.get_type_name
        (get_recursors_for env info.get_type_name ++ [info.get_name])
    m_exported := if persistent then env.m_exported ++ [info] else env.m_exported }

/-- Modelled from the spec: the body of `add_user_recursor` is missing. It runs
the shape validator on `r`; on success it returns a new environment value with
the registry extended by one entry, on failure it surfaces the shape error and
returns no environment. -/
def add_user_recursor (validate : shape_validator name) (env : environment name) (r : name)
    (major_pos : Option Nat) (persistent : Bool) :
    Except (RecursorShapeError name) (environment name) :=
  match validate r major_pos with
  | Except.error e => Except.error e
  | Except.ok info => Except.ok (add_entry env info persistent)

/-- The arguments of one call of `add_user_recursor`, the environment apart. -/
structure registration (name : Type) where
  r : name
  major_pos : Option Nat
  persistent : Bool
deriving DecidableEq

/-- A sequence of calls of `add_user_recursor`, each on the environment the
previous one returned; the first failure ends the sequence with its error. -/
def add_user_recursors (validate : shape_validator name) :
    environment name → List (registration name) → Except (RecursorShapeError name) (environment name)
  | env, [] => Except.ok env
  | env, c :: cs =>
    match add_user_recursor validate env c.r c.major_pos c.persistent with
    | Except.error e => Except.error e
    | Except.ok env1 => add_user_recursors validate env1 cs

/-- The metadata records the calls of a sequence register, in call order. -/
def registered_infos (validate : shape_validator name) :
    List (registration name) → List (recursor_info name)
  | [] => []
  | c :: cs =>
    match validate c.r c.major_pos with
    | Except.error _ => registered_infos validate cs
    | Except.ok info => info :: registered_infos validate cs

/-- The names of the recursors among `infos` that eliminate family `I`, in the
order of `infos`. -/
def names_for (I : name) : List (recursor_info name) → List name
  | [] => []
  | info :: infos =>
    if info.get_type_name = I then info.get_name :: names_for I infos else names_for I infos

/-- The environments of a development: the initial one, and every one a
successful call of `add_user_recursor` returns on a reachable one (the
validator may differ from call to call, as the declarations in scope do). -/
inductive reachable : environment name → Prop where
  | initial : reachable (initial_environment name)
  | add (validate : shape_validator name) (env env1 : environment name) (r : name)
      (major_pos : Option Nat) (persistent : Bool) :
      reachable env →
      add_user_recursor validate env r major_pos persistent = Except.ok env1 →
      reachable env1

end registry

/-! ## `has_recursors_pred` -/

/-- The snapshot predicate: its one data member. -/
structure has_recursors_pred (name : Type) where
  m_type2recursors : name_map name (List name)

namespace has_recursors_pred

variable {name : Type} [DecidableEq name]

/-- Modelled from the spec: the body of the constructor
`has_recursors_pred(environment const & env)` is missing. The snapshot is built
once from the environment: it caches the family → recursors index of that
environment generation. -/
def of_environment (env : environment name) : has_recursors_pred name :=
  { m_type2recursors := env.m_type2recursors }

/-- The call operator `operator()(name const & n)`. -/
def call (p : has_recursors_pred name) (n : name) : Bool := p.m_type2recursors.contains n

end has_recursors_pred

/-- No family is bound to the empty list. -/
def no_empty_binding {name : Type} [DecidableEq name] (m : name_map name (List name)) : Prop :=
  ∀ n, m.find n ≠ some []

/-- The spec's reading of the snapshot: family `n` has any recursor in `env`,
that is, `get_recursors_for env n` is a non-empty list. -/
def has_any_recursor {name : Type} [DecidableEq name] (env : environment name) (n : name) : Bool :=
  !(get_recursors_for env n).isEmpty

/-! ## Sample data

Concrete values, with natural numbers as names, on which the properties below
are exercised. -/

/-- A validator over numeric names: it accepts the candidates below `10`,
assigning candidate `r` to family `r % 2`, and rejects the others. -/
def sample_validator : shape_validator Nat := fun r major_pos =>
  if r < 10 then
    Except.ok (recursor_info.mk r (r % 2) none true (major_pos.getD 3) [] [])
  else
    Except.error { kind := shape_error_kind.MajorPremiseNotFound, culprit := Sum.inr r }

def sample_registrations : List (registration Nat) :=
  [{ r := 1, major_pos := none, persistent := true },
   { r := 2, major_pos := none, persistent := false },
   { r := 3, major_pos := some 4, persistent := true }]

/-- The environment the sample registrations lead to from the initial one. -/
def sample_environment : environment Nat :=
  { m_recursors :=
      [(1, recursor_info.mk 1 1 none true 3 [] []),
       (2, recursor_info.mk 2 0 none true 3 [] []),
       (3, recursor_info.mk 3 1 none true 4 [] [])]
    m_type2recursors := [(1, [1, 3]), (0, [2])]
    m_exported :=
      [recursor_info.mk 1 1 none true 3 [] [], recursor_info.mk 3 1 none true 4 [] []] }

/-! ## Properties of the derived positions -/

section derived

variable {name : Type}

theorem length_eq_of_lt {α : Type} (l : List α) (h : l.length < unsigned_range) :
    length l = l.length := by
  unfold length
  exact Nat.mod_eq_of_lt h

theorem unsigned_sub_eq_of_le (a b : Nat) (ha : a < unsigned_range) (hb : b ≤ a) :
    unsigned_sub a b = a - b := by
  unfold unsigned_sub
  have h1 : a % unsigned_range = a := Nat.mod_eq_of_lt ha
  have h2 : b % unsigned_range = b := Nat.mod_eq_of_lt (lt_of_le_of_lt hb ha)
  rw [h1, h2]
  have h3 : a + (unsigned_range - b) = (a - b) + unsigned_range := by
    simp only [unsigned_range] at *
    omega
  rw [h3, Nat.add_mod_right]
  exact Nat.mod_eq_of_lt (lt_of_le_of_lt (Nat.sub_le a b) ha)

theorem unsigned_sub_eq_of_lt (a b : Nat) (hb : b < unsigned_range) (hab : a < b) :
    unsigned_sub a b = a + unsigned_range - b := by
  unfold unsigned_sub
  have h1 : a % unsigned_range = a := Nat.mod_eq_of_lt (lt_trans hab hb)
  have h2 : b % unsigned_range = b := Nat.mod_eq_of_lt hb
  rw [h1, h2]
  have h3 : a + (unsigned_range - b) = a + unsigned_range - b := by
    simp only [unsigned_range] at *
    omega
  rw [h3]
  apply Nat.mod_eq_of_lt
  simp only [unsigned_range] at *
  omega

theorem mem_range_prime_iff (s q pos : Nat) : pos ∈ List.range' s q ↔ s ≤ pos ∧ pos < s + q := by
  exact List.mem_range'_1

/-- Under the canonical layout with a representable major position, the
accessors take their intended values. -/
theorem canonical_positions (info : recursor_info name) (hc : info.canonical_layout)
    (hm : is_unsigned info.m_major_pos) :
    info.get_motive_pos = info.m_params_pos.length ∧
    info.get_num_indices = info.m_indices_pos.length ∧
    info.get_first_index_pos = info.m_major_pos - info.m_indices_pos.length := by
  obtain ⟨_, _, hlt⟩ := hc
  have hp : info.m_params_pos.length < unsigned_range := by
    simp only [is_unsigned, unsigned_range] at *; omega
  have hq : info.m_indices_pos.length < unsigned_range := by
    simp only [is_unsigned, unsigned_range] at *; omega
  refine ⟨?_, ?_, ?_⟩
  · simp [recursor_info.get_motive_pos, recursor_info.get_num_params, length_eq_of_lt _ hp]
  · simp [recursor_info.get_num_indices, length_eq_of_lt _ hq]
  · simp only [recursor_info.get_first_index_pos, recursor_info.get_num_indices,
      length_eq_of_lt _ hq]
    exact unsigned_sub_eq_of_le _ _ hm (by omega)

/-- C1: for every `recursor_info` built from (recursor name, type name,
motive_univ_pos, dep_elim, major_pos, params_pos, indices_pos), whose position
lists have lengths an `unsigned` can report, `get_num_params` is the length of
`params_pos`, `get_num_indices` is the length of `indices_pos`, and
`get_motive_pos` equals `get_num_params`. -/
theorem recursor_info_counts (r I : name) (motive_univ_pos : Option Nat) (dep_elim : Bool)
    (major_pos : Nat) (params_pos indices_pos : List Nat)
    (hp : is_unsigned params_pos.length) (hi : is_unsigned indices_pos.length) :
    (recursor_info.mk r I motive_univ_pos dep_elim major_pos params_pos indices_pos).get_num_params
      = params_pos.length ∧
    (recursor_info.mk r I motive_univ_pos dep_elim major_pos params_pos indices_pos).get_num_indices
      = indices_pos.length ∧
    (recursor_info.mk r I motive_univ_pos dep_elim major_pos params_pos indices_pos).get_motive_pos
      = (recursor_info.mk r I motive_univ_pos dep_elim major_pos params_pos
          indices_pos).get_num_params := by
  refine ⟨?_, ?_, rfl⟩
  · exact length_eq_of_lt _ hp
  · exact length_eq_of_lt _ hi

theorem recursor_info_counts_witness :
    (recursor_info.mk 7 1 (some 0) true 5 [0, 1] [3, 4]).get_num_params = 2 ∧
    (recursor_info.mk 7 1 (some 0) true 5 [0, 1] [3, 4]).get_num_indices = 2 ∧
    (recursor_info.mk 7 1 (some 0) true 5 [0, 1] [3, 4]).get_motive_pos
      = (recursor_info.mk 7 1 (some 0) true 5 [0, 1] [3, 4]).get_num_params :=
  recursor_info_counts (7 : Nat) 1 (some 0) true 5 [0, 1] [3, 4] (by decide) (by decide)

/-- C2: for every `recursor_info` that satisfies the canonical layout (so its
index count does not exceed its major position) and whose major position is an
`unsigned`, `get_first_index_pos` is the exact integer difference
major position − index count, which is non-negative (no wrap-around), and
`get_first_index_pos + get_num_indices = get_major_pos`. -/
theorem first_index_pos_exact (info : recursor_info name) (hc : info.canonical_layout)
    (hm : is_unsigned info.m_major_pos) :
    info.m_indices_pos.length ≤ info.m_major_pos ∧
    (info.get_first_index_pos : Int) = (info.m_major_pos : Int) - (info.m_indices_pos.length : Int) ∧
    info.get_first_index_pos + info.get_num_indices = info.get_major_pos := by
  obtain ⟨_, hq, hf⟩ := canonical_positions info hc hm
  obtain ⟨_, _, hlt⟩ := hc
  have hle : info.m_indices_pos.length ≤ info.m_major_pos := by omega
  refine ⟨hle, ?_, ?_⟩
  · rw [hf]; omega
  · rw [hf, hq, recursor_info.get_major_pos]; omega

theorem first_index_pos_exact_witness :
    [3, 4].length ≤ 5 ∧
    ((recursor_info.mk 7 1 (some 0) true 5 [0, 1] [3, 4]).get_first_index_pos : Int)
      = (5 : Int) - (([3, 4] : List Nat).length : Int) ∧
    (recursor_info.mk 7 1 (some 0) true 5 [0, 1] [3, 4]).get_first_index_pos
      + (recursor_info.mk 7 1 (some 0) true 5 [0, 1] [3, 4]).get_num_indices
      = (recursor_info.mk 7 1 (some 0) true 5 [0, 1] [3, 4]).get_major_pos :=
  first_index_pos_exact (recursor_info.mk (7 : Nat) 1 (some 0) true 5 [0, 1] [3, 4])
    (by decide) (by decide)

/-- C3: for every `recursor_info` that satisfies the canonical layout (with an
`unsigned` major position) and every `pos` in `[0, major_position]`:
`is_minor pos` is false when `pos` is a parameter position, the motive
position, an index position or the major position, and true for every other
`pos` (all of which lie in `[0, major_position)`). -/
theorem is_minor_canonical (info : recursor_info name) (hc : info.canonical_layout)
    (hm : is_unsigned info.m_major_pos) (pos : Nat) (hpos : pos ≤ info.m_major_pos) :
    ((pos ∈ info.m_params_pos ∨ pos = info.get_motive_pos ∨ pos ∈ info.m_indices_pos ∨
        pos = info.get_major_pos) → info.is_minor pos = false) ∧
    (¬ (pos ∈ info.m_params_pos ∨ pos = info.get_motive_pos ∨ pos ∈ info.m_indices_pos ∨
        pos = info.get_major_pos) → info.is_minor pos = true ∧ pos < info.get_major_pos) := by
  obtain ⟨hmot, _, hf⟩ := canonical_positions info hc hm
  obtain ⟨hpar, hidx, hlt⟩ := hc
  have h1 : pos ∈ info.m_params_pos ↔ pos < info.m_params_pos.length := by
    rw [hpar]; simp
  have h2 : pos ∈ info.m_indices_pos ↔
      info.m_major_pos - info.m_indices_pos.length ≤ pos ∧
      pos < info.m_major_pos - info.m_indices_pos.length + info.m_indices_pos.length := by
    rw [hidx]; simp [mem_range_prime_iff]
  simp only [recursor_info.is_minor, recursor_info.get_major_pos, hmot, hf, h1, h2,
    decide_eq_false_iff_not, decide_eq_true_eq]
  constructor
  · intro h; omega
  · intro h; omega

theorem is_minor_canonical_witness :
    (recursor_info.mk 7 1 (some 0) true 6 [0, 1] [4, 5]).canonical_layout ∧
    (recursor_info.mk 7 1 (some 0) true 6 [0, 1] [4, 5]).is_minor 4 = false ∧
    ((recursor_info.mk 7 1 (some 0) true 6 [0, 1] [4, 5]).is_minor 3 = true ∧
      3 < (recursor_info.mk 7 1 (some 0) true 6 [0, 1] [4, 5]).get_major_pos) :=
  ⟨by decide,
   (is_minor_canonical (recursor_info.mk (7 : Nat) 1 (some 0) true 6 [0, 1] [4, 5])
      (by decide) (by decide) 4 (by decide)).1 (by decide),
   (is_minor_canonical (recursor_info.mk (7 : Nat) 1 (some 0) true 6 [0, 1] [4, 5])
      (by decide) (by decide) 3 (by decide)).2 (by decide)⟩

/-- C9: the constructor accepts any `unsigned` major position and any index
list; when the index list is longer than `major_pos`, `get_first_index_pos`
still returns a value, the wrap-around
`(major_pos − length indices_pos) mod 2^32 = major_pos + 2^32 − length indices_pos`,
which is strictly greater than `major_pos`; then
`first_index_position + index_count = major_position` fails over the integers
and holds modulo `2^32`. -/
theorem first_index_pos_wraps (r I : name) (motive_univ_pos : Option Nat) (dep_elim : Bool)
    (major_pos : Nat) (params_pos indices_pos : List Nat)
    (hi : is_unsigned indices_pos.length) (hlt : major_pos < indices_pos.length) :
    (recursor_info.mk r I motive_univ_pos dep_elim major_pos params_pos
        indices_pos).get_first_index_pos
      = major_pos + 2 ^ 32 - indices_pos.length ∧
    ((recursor_info.mk r I motive_univ_pos dep_elim major_pos params_pos
        indices_pos).get_first_index_pos : Int)
      = ((major_pos : Int) - (indices_pos.length : Int)) % 2 ^ 32 ∧
    major_pos < (recursor_info.mk r I motive_univ_pos dep_elim major_pos params_pos
        indices_pos).get_first_index_pos ∧
    (recursor_info.mk r I motive_univ_pos dep_elim major_pos params_pos
        indices_pos).get_first_index_pos
      + (recursor_info.mk r I motive_univ_pos dep_elim major_pos params_pos
        indices_pos).get_num_indices ≠ major_pos ∧
    ((recursor_info.mk r I motive_univ_pos dep_elim major_pos params_pos
        indices_pos).get_first_index_pos
      + (recursor_info.mk r I motive_univ_pos dep_elim major_pos params_pos
        indices_pos).get_num_indices) % 2 ^ 32 = major_pos := by
  have hq : length indices_pos = indices_pos.length := length_eq_of_lt _ hi
  have hf : unsigned_sub major_pos indices_pos.length
      = major_pos + unsigned_range - indices_pos.length :=
    unsigned_sub_eq_of_lt _ _ hi hlt
  simp only [recursor_info.get_first_index_pos, recursor_info.get_num_indices, hq, hf]
  simp only [is_unsigned, unsigned_range] at *
  refine ⟨?_, ?_, ?_, ?_, ?_⟩ <;> first | trivial | omega

theorem first_index_pos_wraps_witness :
    (recursor_info.mk 7 1 none false 1 [] [0, 1, 2]).get_first_index_pos = 1 + 2 ^ 32 - 3 ∧
    ((recursor_info.mk 7 1 none false 1 [] [0, 1, 2]).get_first_index_pos : Int)
      = ((1 : Int) - 3) % 2 ^ 32 ∧
    1 < (recursor_info.mk 7 1 none false 1 [] [0, 1, 2]).get_first_index_pos ∧
    (recursor_info.mk 7 1 none false 1 [] [0, 1, 2]).get_first_index_pos
      + (recursor_info.mk 7 1 none false 1 [] [0, 1, 2]).get_num_indices ≠ 1 ∧
    ((recursor_info.mk 7 1 none false 1 [] [0, 1, 2]).get_first_index_pos
      + (recursor_info.mk 7 1 none false 1 [] [0, 1, 2]).get_num_indices) % 2 ^ 32 = 1 :=
  first_index_pos_wraps (7 : Nat) 1 none false 1 [] [0, 1, 2] (by decide) (by decide)

end derived

/-! ## Round trip of the serialized record -/

section roundtrip

variable {name : Type}

/-- The objects `write_elements` emits for a list of positions. -/
theorem write_elements_eq (s : serializer name) (l : List Nat) :
    write_elements s l = s ++ l.map (fun x => object.of_unsigned (x % unsigned_range)) := by
  induction l generalizing s with
  | nil => simp [write_elements]
  | cons x xs ih => simp [write_elements, ih, write_unsigned]

theorem write_list_eq (s : serializer name) (l : List Nat) :
    write_list s l =
      s ++ object.of_unsigned (length l % unsigned_range) ::
        l.map (fun x => object.of_unsigned (x % unsigned_range)) := by
  simp [write_list, write_elements_eq, write_unsigned]

theorem write_optional_unsigned_eq (s : serializer name) (o : Option Nat) :
    write_optional_unsigned s o = s ++ write_optional_unsigned [] o := by
  cases o <;> simp [write_optional_unsigned, write_bool, write_unsigned]

/-- Reading back the elements of a list of `unsigned` values. -/
theorem read_elements_map (l : List Nat) (hl : ∀ x ∈ l, is_unsigned x)
    (rest : deserializer name) :
    read_elements l.length
        (l.map (fun x => object.of_unsigned (x % unsigned_range)) ++ rest)
      = some (l, rest) := by
  induction l with
  | nil => simp [read_elements]
  | cons x xs ih =>
    have hx : x % unsigned_range = x := Nat.mod_eq_of_lt (hl x (List.mem_cons_self _ _))
    have hxs : ∀ y ∈ xs, is_unsigned y := fun y hy => hl y (List.mem_cons_of_mem _ hy)
    simp [read_elements, read_unsigned, hx, ih hxs]

/-- Reading back a length-prefixed list of `unsigned` values. -/
theorem read_list_write_list (l : List Nat) (hl : ∀ x ∈ l, is_unsigned x)
    (hlen : is_unsigned l.length) (rest : deserializer name) :
    read_list (object.of_unsigned (length l % unsigned_range) ::
        (l.map (fun x => object.of_unsigned (x % unsigned_range)) ++ rest))
      = some (l, rest) := by
  have h1 : length l = l.length := length_eq_of_lt _ hlen
  have h2 : l.length % unsigned_range = l.length := Nat.mod_eq_of_lt hlen
  simp only [read_list, read_unsigned, h1, h2]
  exact read_elements_map l hl rest

theorem read_optional_write_optional (o : Option Nat) (ho : ∀ u ∈ o, is_unsigned u)
    (rest : deserializer name) :
    read_optional_unsigned (write_optional_unsigned [] o ++ rest) = some (o, rest) := by
  cases o with
  | none => simp [write_optional_unsigned, write_bool, read_optional_unsigned, read_bool]
  | some v =>
    have hv : v % unsigned_range = v := Nat.mod_eq_of_lt (ho v rfl)
    simp [write_optional_unsigned, write_bool, write_unsigned, read_optional_unsigned,
      read_bool, read_unsigned, hv]

/-- C5: for every `recursor_info` value `info` (one a C++ record can hold:
its 32-bit fields and list lengths are below `2^32`), `read` applied to the
output of `info.write` yields a record equal to `info` in all seven fields, and
consumes exactly what `write` emitted; this includes an absent motive universe
position and empty position lists. -/
theorem read_write (info : recursor_info name) (h : info.representable)
    (rest : deserializer name) :
    recursor_info.read (info.write [] ++ rest) = some (info, rest) := by
  obtain ⟨hu, hm, hp, hpl, hi, hil⟩ := h
  have hmaj : info.m_major_pos % unsigned_range = info.m_major_pos := Nat.mod_eq_of_lt hm
  cases info with
  | mk r I mu de mp pp ip =>
    simp only at hu hm hp hpl hi hil hmaj
    simp only [recursor_info.write, write_list_eq, write_name, write_bool, write_unsigned,
      write_optional_unsigned_eq [object.of_name r, object.of_name I] mu, List.nil_append,
      List.append_assoc, List.cons_append, List.singleton_append, hmaj]
    simp only [recursor_info.read, read_name, read_optional_write_optional mu hu, read_bool,
      read_unsigned, read_list_write_list pp hp hpl, read_list_write_list ip hi hil]

theorem read_write_witness :
    recursor_info.read ((recursor_info.mk 7 1 none true 3 [] [4, 2]).write [] ++
        [object.of_bool true])
      = some (recursor_info.mk 7 1 none true 3 [] [4, 2], [object.of_bool true]) :=
  read_write (recursor_info.mk (7 : Nat) 1 none true 3 [] [4, 2])
    (by decide) [object.of_bool true]

end roundtrip

/-! ## The registry and the snapshot predicate -/

section registry_properties

variable {name : Type} [DecidableEq name]

theorem name_map.find_insert {α : Type} (m : name_map name α) (n k : name) (v : α) :
    (m.insert n v).find k = if n = k then some v else m.find k := by
  induction m with
  | nil => simp [name_map.insert, name_map.find]
  | cons b m ih =>
    obtain ⟨j, w⟩ := b
    by_cases hj : j = n
    · subst hj
      by_cases hk : j = k <;> simp [name_map.insert, name_map.find, hk]
    · by_cases hk : j = k
      · subst hk
        have hn : ¬ n = j := fun h => hj h.symm
        simp [name_map.insert, name_map.find, hj, hn]
      · simp [name_map.insert, name_map.find, hj, hk, ih]

theorem get_recursors_for_initial (I : name) :
    get_recursors_for (initial_environment name) I = [] := by
  simp [get_recursors_for, initial_environment, name_map.find]

/-- One registration appends the recursor name at the end of its family's list
and leaves every other family's list alone. -/
theorem get_recursors_for_add_entry (env : environment name) (info : recursor_info name)
    (persistent : Bool) (I : name) :
    get_recursors_for (add_entry env info persistent) I =
      if info.get_type_name = I then get_recursors_for env I ++ [info.get_name]
      else get_recursors_for env I := by
  by_cases h : info.get_type_name = I
  · subst h
    simp [get_recursors_for, add_entry, name_map.find_insert]
  · simp [get_recursors_for, add_entry, name_map.find_insert, h]

theorem names_for_eq_nil (I : name) (infos : List (recursor_info name))
    (h : ∀ info ∈ infos, info.get_type_name ≠ I) : names_for I infos = [] := by
  induction infos with
  | nil => rfl
  | cons a infos ih =>
    have ha : a.get_type_name ≠ I := h a (List.mem_cons_self _ _)
    simp [names_for, ha, ih (fun x hx => h x (List.mem_cons_of_mem _ hx))]

/-- The family lists after a successful sequence of registrations. -/
theorem get_recursors_for_add_user_recursors (validate : shape_validator name)
    (cs : List (registration name)) (env0 env : environment name)
    (h : add_user_recursors validate env0 cs = Except.ok env) (I : name) :
    get_recursors_for env I =
      get_recursors_for env0 I ++ names_for I (registered_infos validate cs) := by
  induction cs generalizing env0 with
  | nil =>
    simp only [add_user_recursors, Except.ok.injEq] at h
    simp [registered_infos, names_for, h]
  | cons c cs ih =>
    simp only [add_user_recursors, add_user_recursor] at h
    cases hv : validate c.r c.major_pos with
    | error e => simp [hv] at h
    | ok info =>
      simp only [hv] at h
      rw [ih _ h, get_recursors_for_add_entry]
      by_cases hI : info.get_type_name = I <;> simp [registered_infos, hv, names_for, hI]

theorem no_empty_binding_add_entry (env : environment name) (info : recursor_info name)
    (persistent : Bool) (h : no_empty_binding env.m_type2recursors) :
    no_empty_binding (add_entry env info persistent).m_type2recursors := by
  intro n
  simp only [add_entry, name_map.find_insert]
  by_cases hn : info.get_type_name = n
  · simp [hn]
  · simpa [hn] using h n

theorem no_empty_binding_of_reachable (env : environment name) (h : reachable env) :
    no_empty_binding env.m_type2recursors := by
  induction h with
  | initial => intro k; simp [initial_environment, name_map.find]
  | add validate env env1 r major_pos persistent _ hadd ih =>
    simp only [add_user_recursor] at hadd
    cases hv : validate r major_pos with
    | error e => simp [hv] at hadd
    | ok info =>
      simp only [hv, Except.ok.injEq] at hadd
      exact hadd ▸ no_empty_binding_add_entry env info persistent ih

/-- The call operator tests for a key. -/
theorem call_iff_key (m : name_map name (List name)) (n : name) :
    (has_recursors_pred.mk m).call n = true ↔ ∃ l, m.find n = some l := by
  simp [has_recursors_pred.call, name_map.contains, Option.isSome_iff_exists]

/-- For a map, the call operator agrees with non-emptiness of the stored list
exactly when no key is bound to the empty list. -/
theorem call_iff_nonempty_iff (m : name_map name (List name)) :
    (∀ n, (has_recursors_pred.mk m).call n = true ↔ ∃ l, m.find n = some l ∧ l ≠ []) ↔
      no_empty_binding m := by
  constructor
  · intro h n hn
    obtain ⟨l, hl, hne⟩ := (h n).1 ((call_iff_key m n).2 ⟨[], hn⟩)
    rw [hn] at hl
    exact hne (Option.some.inj hl).symm
  · intro h n
    rw [call_iff_key]
    constructor
    · rintro ⟨l, hl⟩
      exact ⟨l, hl, fun hnil => h n (hnil ▸ hl)⟩
    · rintro ⟨l, hl, _⟩
      exact ⟨l, hl⟩

/-- C6: for every environment `env` (initial, or returned by successful
registrations) and every inductive-family name `n`, the predicate
`has_recursors_pred` constructed from `env` answers true on `n` if and only if
`get_recursors_for env n` is a non-empty list. -/
theorem has_recursors_pred_iff (env : environment name) (h : reachable env) (n : name) :
    ((has_recursors_pred.of_environment env).call n = true ↔ get_recursors_for env n ≠ []) ∧
    (has_recursors_pred.of_environment env).call n = has_any_recursor env n := by
  have hinv : no_empty_binding env.m_type2recursors := no_empty_binding_of_reachable env h
  have key : (has_recursors_pred.of_environment env).call n = true ↔
      get_recursors_for env n ≠ [] := by
    have hn := hinv n
    simp only [has_recursors_pred.of_environment, has_recursors_pred.call, name_map.contains,
      get_recursors_for]
    cases hf : env.m_type2recursors.find n with
    | none => simp
    | some l =>
      rw [hf] at hn
      have hl : l ≠ [] := fun hnil => hn (by rw [hnil])
      simp [hl]
  refine ⟨key, ?_⟩
  by_cases hne : get_recursors_for env n = []
  · have hc : ¬ (has_recursors_pred.of_environment env).call n = true := fun hc => key.1 hc hne
    simp [has_any_recursor, hne, hc]
  · have hc := key.2 hne
    simp [has_any_recursor, hne, hc]

theorem has_recursors_pred_iff_witness :
    ((has_recursors_pred.of_environment
        (add_entry (initial_environment Nat) (recursor_info.mk 1 1 none true 3 [] []) true)).call 1
        = true ↔
      get_recursors_for
        (add_entry (initial_environment Nat) (recursor_info.mk 1 1 none true 3 [] []) true) 1
        ≠ []) ∧
    (has_recursors_pred.of_environment
        (add_entry (initial_environment Nat) (recursor_info.mk 1 1 none true 3 [] []) true)).call 1
      = has_any_recursor
        (add_entry (initial_environment Nat) (recursor_info.mk 1 1 none true 3 [] []) true) 1 :=
  has_recursors_pred_iff
    (add_entry (initial_environment Nat) (recursor_info.mk 1 1 none true 3 [] []) true)
    (reachable.add sample_validator (initial_environment Nat) _ 1 none true reachable.initial rfl)
    1

/-- C7: for every environment `env` reached from a starting environment `env0`
by a sequence of successful `add_user_recursor` calls, `get_recursors_for env I`
is the list `env0` already held for `I` (empty for the initial environment)
followed by exactly the names of the recursors the calls registered against
`I`, in call order; it is the list of `env0` unchanged (empty from the initial
environment) when no call registered a recursor against `I`. -/
theorem get_recursors_for_registration_order (validate : shape_validator name)
    (cs : List (registration name)) (env0 env : environment name)
    (h : add_user_recursors validate env0 cs = Except.ok env) (I : name) :
    get_recursors_for env I =
      get_recursors_for env0 I ++ names_for I (registered_infos validate cs) ∧
    ((∀ info ∈ registered_infos validate cs, info.get_type_name ≠ I) →
      get_recursors_for env I = get_recursors_for env0 I) ∧
    get_recursors_for (initial_environment name) I = [] := by
  have hmain := get_recursors_for_add_user_recursors validate cs env0 env h I
  refine ⟨hmain, ?_, get_recursors_for_initial I⟩
  intro hnone
  rw [hmain, names_for_eq_nil I _ hnone, List.append_nil]

theorem get_recursors_for_registration_order_witness :
    get_recursors_for sample_environment 1 = [1, 3] ∧
    get_recursors_for sample_environment 0 = [2] ∧
    get_recursors_for sample_environment 5 = [] :=
  ⟨(get_recursors_for_registration_order sample_validator sample_registrations
      (initial_environment Nat) sample_environment rfl 1).1,
   (get_recursors_for_registration_order sample_validator sample_registrations
      (initial_environment Nat) sample_environment rfl 0).1,
   (get_recursors_for_registration_order sample_validator sample_registrations
      (initial_environment Nat) sample_environment rfl 5).2.1 (by decide)⟩

/-- C10: the call operator of `has_recursors_pred` answers true on `n` exactly
when `n` is a key of the snapshot map, whatever list is stored under it: in
the map that binds `n` to the empty list it answers true although the list of
`n` is empty; so it agrees with non-emptiness of the stored list, for every
name, exactly for the maps in which no key is bound to the empty list. -/
theorem call_is_key_test :
    (∀ (m : name_map name (List name)) (n : name),
      (has_recursors_pred.mk m).call n = true ↔ ∃ l, m.find n = some l) ∧
    (∀ n : name, name_map.find [(n, ([] : List name))] n = some [] ∧
      (has_recursors_pred.mk [(n, ([] : List name))]).call n = true) ∧
    (∀ m : name_map name (List name),
      (∀ n, (has_recursors_pred.mk m).call n = true ↔ ∃ l, m.find n = some l ∧ l ≠ []) ↔
        ∀ n, m.find n ≠ some []) := by
  refine ⟨call_iff_key, ?_, call_iff_nonempty_iff⟩
  intro n
  simp [has_recursors_pred.call, name_map.contains, name_map.find]

end registry_properties

end lean
